import Mathlib

/-!
Shallow embedding of the analytics core of `backend/server.py` from the
Global-Sales-Risk-Analytics repository: the risk-scoring formula and
categorisation from `generate_mock_data`, the KPI growth computation from
`get_kpis`, the regional rollup from `get_regional_summary`, the period
bucketing from `get_sales_trends`, and the linear-trend forecaster from
`get_sales_forecast`.  Machine floats are embedded as exact rationals;
Python's `round(x, n)` (round-half-to-even) is embedded exactly.
-/

/-- Python's `round` to an integer: round half to even (banker's rounding),
the semantics of `round(x)` on exact decimal values. -/
def roundHalfEven (x : ℚ) : ℤ :=
  if x - ⌊x⌋ < 1/2 then ⌊x⌋
  else if 1/2 < x - ⌊x⌋ then ⌊x⌋ + 1
  else if ⌊x⌋ % 2 = 0 then ⌊x⌋ else ⌊x⌋ + 1

/-- Python's `round(x, 2)` on exact values. -/
def round2 (x : ℚ) : ℚ := (roundHalfEven (x * 100) : ℚ) / 100

/-- Python's `round(x, 1)` on exact values. -/
def round1 (x : ℚ) : ℚ := (roundHalfEven (x * 10) : ℚ) / 10

/-- A calendar timestamp (`datetime` in the source).  `year`/`month` are the
components read by `strftime("%Y-%m")` and `.year`; `dayNumber` is the
instant on a linear day scale, used for `timedelta` window comparisons.
The calendar correspondence between the two views is not modelled — no
verified property depends on it. -/
structure Datetime where
  year : ℕ
  month : ℕ
  dayNumber : ℤ
deriving DecidableEq

/-- Source: `SalesRecord` (pydantic model in the source), revenue amounts as exact
rationals. -/
structure SalesRecord where
  id : String := ""
  region : String
  country : String := ""
  customer_id : String := ""
  customer_name : String := ""
  product_category : String := ""
  product_name : String := ""
  sales_rep : String := ""
  order_date : Datetime
  revenue : ℚ
  quantity : ℕ := 1
  deal_size : ℚ := 0
  currency : String := ""
  payment_status : String := "Paid"
  payment_due_date : Datetime := ⟨0, 0, 0⟩
  days_overdue : ℕ := 0
deriving DecidableEq

/-- Source: `CustomerProfile` (pydantic model in the source). -/
structure CustomerProfile where
  customer_id : String := ""
  customer_name : String := ""
  region : String
  country : String := ""
  industry : String := ""
  company_size : String := ""
  total_revenue : ℚ := 0
  avg_deal_size : ℚ := 0
  payment_history_score : ℚ := 0
  risk_score : ℚ := 0
  risk_category : String := "Low"
  days_since_last_order : ℤ := 0
deriving DecidableEq

/-! ## Risk scorer (`generate_mock_data`, lines 219-250)

The volatility term `random.uniform(0, 30)` is embedded as an explicit
parameter `volatility`; `days_since_last_order = (now - last_order_date).days`
as an explicit integer parameter. -/

/-- Source: `overdue_ratio = overdue_count / order_count if order_count > 0 else 0`. -/
def overdueRatio (overdue_count order_count : ℕ) : ℚ :=
  if 0 < order_count then (overdue_count : ℚ) / (order_count : ℚ) else 0

/-- Source: `payment_history_score = max(0, 100 - (overdue_ratio * 100))`. -/
def paymentHistoryScore (overdue_count order_count : ℕ) : ℚ :=
  max 0 (100 - overdueRatio overdue_count order_count * 100)

/-- Source: `recency_factor = min(days_since_last_order / 365, 1.0) * 30`. -/
def recencyFactor (days_since_last_order : ℤ) : ℚ :=
  min ((days_since_last_order : ℚ) / 365) 1 * 30

/-- Source: `payment_factor = (100 - payment_history_score) * 0.4`. -/
def paymentFactor (payment_history_score : ℚ) : ℚ :=
  (100 - payment_history_score) * (4/10)

/-- Source: `risk_score = recency_factor + payment_factor + volatility_factor`. -/
def riskScore (days_since_last_order : ℤ) (order_count overdue_count : ℕ)
    (volatility : ℚ) : ℚ :=
  recencyFactor days_since_last_order
    + paymentFactor (paymentHistoryScore overdue_count order_count)
    + volatility

/-- Source: `if risk_score < 30: "Low" elif risk_score < 60: "Medium" else: "High"`,
applied to the unrounded `risk_score` (the profile later stores
`round(risk_score, 1)`, but categorisation happens before rounding). -/
def riskCategory (risk_score : ℚ) : String :=
  if risk_score < 30 then "Low"
  else if risk_score < 60 then "Medium"
  else "High"

/-! ## KPI engine (`get_kpis`, lines 291-314)

The two persistence queries select the trailing 30-day window and the prior
30-day window by `order_date`; they are embedded as filters on the fetched
record set, with `now` the current instant on the day scale. -/

def revenueSum (rs : List SalesRecord) : ℚ := (rs.map SalesRecord.revenue).sum

/-- Source: `db.sales_records.find({"order_date": {"$gte": current_period_start}})`. -/
def currentSales (sales : List SalesRecord) (now : ℤ) : List SalesRecord :=
  sales.filter (fun r => now - 30 ≤ r.order_date.dayNumber)

/-- Source: `db.sales_records.find({"order_date": {"$gte": previous_period_start,
"$lt": previous_period_end}})`. -/
def previousSales (sales : List SalesRecord) (now : ℤ) : List SalesRecord :=
  sales.filter (fun r =>
    now - 60 ≤ r.order_date.dayNumber ∧ r.order_date.dayNumber < now - 30)

/-- Source: `revenue_growth = ((current - previous) / previous * 100) if previous > 0
else 0` (line 311), before the `round(-, 1)` applied at the boundary. -/
def revenueGrowth (current_revenue previous_revenue : ℚ) : ℚ :=
  if 0 < previous_revenue then
    (current_revenue - previous_revenue) / previous_revenue * 100
  else 0

/-- The `revenue_growth` value `get_kpis` derives from a record set. -/
def kpiRevenueGrowth (sales : List SalesRecord) (now : ℤ) : ℚ :=
  revenueGrowth (revenueSum (currentSales sales now))
    (revenueSum (previousSales sales now))

/-! ## Regional rollup (`get_regional_summary`, lines 344-392) -/

/-- The fixed region list iterated by `get_regional_summary`. -/
def regions : List String := ["APAC", "EMEA", "Americas"]

/-- One entry of the `customer_revenue` dict: key, `"name"`, `"revenue"`. -/
structure CustEntry where
  customer_id : String
  name : String
  revenue : ℚ
deriving DecidableEq

/-- One `customer_revenue` dict update (lines 369-374): create the key with
the record's name on first sight, then accumulate revenue in place —
insertion order of keys is preserved, as in a Python dict. -/
def addCustomerRevenue : List CustEntry → String → String → ℚ → List CustEntry
  | [], cid, nm, rev => [⟨cid, nm, rev⟩]
  | e :: es, cid, nm, rev =>
      if e.customer_id = cid then ⟨e.customer_id, e.name, e.revenue + rev⟩ :: es
      else e :: addCustomerRevenue es cid nm rev

/-- The `customer_revenue` dict in key-insertion order. -/
def customerRevenue (rs : List SalesRecord) : List CustEntry :=
  rs.foldl (fun acc r => addCustomerRevenue acc r.customer_id r.customer_name r.revenue) []

/-- Source: `sorted(customer_revenue.values(), key=lambda x: x["revenue"],
reverse=True)[:5]` — Python's `sorted` is a stable sort, embedded as
insertion sort with the non-strict descending relation, which is stable. -/
def topCustomers (rs : List SalesRecord) : List CustEntry :=
  (List.insertionSort (fun a b => b.revenue ≤ a.revenue) (customerRevenue rs)).take 5

/-- Source: `RegionalSummary` (pydantic model in the source). -/
structure RegionalSummary where
  region : String
  total_revenue : ℚ
  total_orders : ℕ
  avg_deal_size : ℚ
  risk_exposure : ℚ
  top_customers : List CustEntry
  countries : List String
deriving DecidableEq

/-- One iteration of the region loop (lines 351-390): `None` when the region
has no sales records (`if not sales_data: continue`).  `countries =
list(set(...))` iterates a Python set in unspecified order; embedded as
first-occurrence deduplication — no verified property depends on the order. -/
def regionSummaryFor (sales : List SalesRecord) (profiles : List CustomerProfile)
    (rg : String) : Option RegionalSummary :=
  let sales_data := sales.filter (fun r => r.region = rg)
  let customer_data := profiles.filter (fun c => c.region = rg)
  if sales_data.isEmpty then none
  else
    let total_revenue := revenueSum sales_data
    let total_orders := sales_data.length
    let avg_deal_size := if 0 < total_orders then total_revenue / total_orders else 0
    let high_risk_ids :=
      (customer_data.filter (fun c => c.risk_category = "High")).map CustomerProfile.customer_id
    let risk_exposure :=
      revenueSum (sales_data.filter (fun r => r.customer_id ∈ high_risk_ids))
    some
      { region := rg
        total_revenue := round2 total_revenue
        total_orders := total_orders
        avg_deal_size := round2 avg_deal_size
        risk_exposure := round2 risk_exposure
        top_customers := topCustomers sales_data
        countries := (sales_data.map SalesRecord.country).dedup }

/-- Source: `get_regional_summary`: one summary per region of `regions` that has at
least one sales record, in region-list order. -/
def get_regional_summary (sales : List SalesRecord)
    (profiles : List CustomerProfile) : List RegionalSummary :=
  regions.filterMap (regionSummaryFor sales profiles)

/-! ## Period bucketing (`get_sales_trends`, lines 394-436)

The source keys buckets by strings — `strftime("%Y-%m")`,
`f"{year}-Q{quarter}"`, `str(year)` — and sorts buckets by Python string
comparison.  Keys are embedded as order-isomorphic naturals
(`year*100 + month`, `year*10 + quarter`, `year`): within one call all keys
share a single zero-padded format, on which lexicographic string order
coincides with this numeric order. -/

/-- Source: `order_date.strftime("%Y-%m")` as a numeric key. -/
def monthKey (d : Datetime) : ℕ := d.year * 100 + d.month

/-- Source: `quarter = (order_date.month - 1) // 3 + 1`. -/
def quarterOf (d : Datetime) : ℕ := (d.month - 1) / 3 + 1

/-- The period-key dispatch of lines 417-423: `if period == "monthly": ...
elif period == "quarterly": ... else:  # yearly`.  Any other value of
`period` falls into the final `else` branch, which keys by `str(year)`. -/
def periodKey (period : String) (d : Datetime) : ℕ :=
  if period = "monthly" then monthKey d
  else if period = "quarterly" then d.year * 10 + quarterOf d
  else d.year

/-- One element of the returned trend list. -/
structure TrendPoint where
  period : ℕ
  revenue : ℚ
  orders : ℕ
deriving DecidableEq

/-- One `trends` dict update (lines 425-429): zero-init on first sight of a
key, then accumulate revenue and order count. -/
def addTrend : List TrendPoint → ℕ → ℚ → List TrendPoint
  | [], k, rev => [⟨k, rev, 1⟩]
  | t :: ts, k, rev =>
      if t.period = k then ⟨t.period, t.revenue + rev, t.orders + 1⟩ :: ts
      else t :: addTrend ts k rev

/-- Source: `get_sales_trends` on the fetched record set (the optional region filter
is applied by the persistence query): aggregate into `trends`, then
`trend_list.sort(key=lambda x: x["period"])` — stable, embedded as insertion
sort.  An empty record set yields the empty list. -/
def get_sales_trends (period : String) (sales : List SalesRecord) : List TrendPoint :=
  let trends := sales.foldl
    (fun acc r => addTrend acc (periodKey period r.order_date) r.revenue) []
  List.insertionSort (fun a b => a.period ≤ b.period) trends

/-! ## Forecast engine (`get_sales_forecast`, lines 455-530)

The persistence query restricts to the last 365 days; `sales` is the fetched
set.  `np.polyfit(x, y, 1)` with `x = arange(len(y))` is embedded by the
closed-form ordinary-least-squares solution for degree 1, which is what
`polyfit` computes (the unique least-squares line when the `x` are distinct).
Future period labels `(current_date + timedelta(days=30*i)).strftime("%Y-%m")`
require calendar arithmetic; they are abstracted as a parameter
`futureMonthKey` — no verified property concerns these labels. -/

/-- One monthly bucket update of `monthly_data` (lines 479-481). -/
def addMonthly : List (ℕ × ℚ) → ℕ → ℚ → List (ℕ × ℚ)
  | [], k, rev => [(k, rev)]
  | p :: ps, k, rev =>
      if p.1 = k then (p.1, p.2 + rev) :: ps else p :: addMonthly ps k rev

/-- The `monthly_data` dict in key-insertion order. -/
def monthlyData (sales : List SalesRecord) : List (ℕ × ℚ) :=
  sales.foldl (fun acc r => addMonthly acc (monthKey r.order_date) r.revenue) []

/-- Source: `sorted_months = sorted(monthly_data.keys())`. -/
def sortedMonths (sales : List SalesRecord) : List ℕ :=
  List.insertionSort (fun a b => a ≤ b) ((monthlyData sales).map Prod.fst)

/-- Source: `monthly_data[month]` (every key of `sorted_months` is present, so the
default is never read). -/
def monthRevenue (sales : List SalesRecord) (m : ℕ) : ℚ :=
  (((monthlyData sales).find? (fun p => p.1 = m)).map Prod.snd).getD 0

/-- Source: `revenues = [monthly_data[month] for month in sorted_months]`. -/
def revenuesByMonth (sales : List SalesRecord) : List ℚ :=
  (sortedMonths sales).map (monthRevenue sales)

/-- Source: `np.polyfit(x, y, 1)[0]` for `x = arange(len(ys))`: the least-squares
slope `(n·Σxy - Σx·Σy) / (n·Σx² - (Σx)²)`. -/
def polyfitSlope (ys : List ℚ) : ℚ :=
  let n : ℚ := ys.length
  let xs := List.range ys.length
  let sx : ℚ := (xs.map (fun i => (i : ℚ))).sum
  let sxx : ℚ := (xs.map (fun i => (i : ℚ) ^ 2)).sum
  let sy := ys.sum
  let sxy := ((xs.zip ys).map (fun p => (p.1 : ℚ) * p.2)).sum
  (n * sxy - sx * sy) / (n * sxx - sx ^ 2)

/-- Source: `np.polyfit(x, y, 1)[1]` for `x = arange(len(ys))`: the least-squares
intercept `(Σy - slope·Σx) / n`. -/
def polyfitIntercept (ys : List ℚ) : ℚ :=
  let n : ℚ := ys.length
  let sx : ℚ := ((List.range ys.length).map (fun i => (i : ℚ))).sum
  (ys.sum - polyfitSlope ys * sx) / n

/-- Source: `forecasted_value = trend_slope * (last_index + i) + trend_intercept`
with `last_index = len(revenues) - 1` (lines 511-514). -/
def forecastValue (ys : List ℚ) (i : ℕ) : ℚ :=
  polyfitSlope ys * ((ys.length - 1 + i : ℕ) : ℚ) + polyfitIntercept ys

/-- Source: `ForecastData` (pydantic model in the source); `confidence_interval` as
an optional `(lower, upper)` pair. -/
structure ForecastData where
  period : ℕ
  actual_revenue : Option ℚ := none
  forecasted_revenue : Option ℚ := none
  confidence_interval : Option (ℚ × ℚ) := none
deriving DecidableEq

/-- Source: `get_sales_forecast`: empty on an empty fetch or on fewer than 3 monthly
buckets; otherwise the last 6 actual months followed by `months` forecast
points with the ±20% band, all revenue outputs rounded to 2 decimals. -/
def get_sales_forecast (sales : List SalesRecord) (months : ℕ)
    (futureMonthKey : ℕ → ℕ) : List ForecastData :=
  if sales.isEmpty then []
  else
    let sm := sortedMonths sales
    let revs := revenuesByMonth sales
    if revs.length < 3 then []
    else
      let hist := (sm.drop (sm.length - 6)).map (fun m =>
        { period := m
          actual_revenue := some (monthRevenue sales m)
          forecasted_revenue := none
          confidence_interval := none : ForecastData })
      let future := (List.range months).map (fun j =>
        let fv := forecastValue revs (j + 1)
        { period := futureMonthKey (j + 1)
          actual_revenue := none
          forecasted_revenue := some (round2 fv)
          confidence_interval :=
            some (round2 (fv * (8/10)), round2 (fv * (12/10))) : ForecastData })
      hist ++ future

/-! ## Concrete inputs used in witnesses and counterexamples -/

/-- A sales record with only the claim-relevant fields distinguished. -/
def mkRec (rg : String) (y m : ℕ) (day : ℤ) (cid : String) (rev : ℚ) : SalesRecord :=
  { region := rg, order_date := ⟨y, m, day⟩, customer_id := cid,
    customer_name := cid, revenue := rev }

/-- Three records in three consecutive monthly buckets with revenues
100, 200, 300 — the worked forecast example. -/
def forecastSales3 : List SalesRecord :=
  [mkRec "APAC" 2024 1 0 "C1" 100,
   mkRec "APAC" 2024 2 31 "C1" 200,
   mkRec "APAC" 2024 3 60 "C1" 300]

/-- Three monthly buckets with revenues 0.003, 0, 0: the fitted trend is
negative but so close to zero that every output of the first forecast point
rounds to 0.00. -/
def forecastSalesTiny : List SalesRecord :=
  [mkRec "APAC" 2024 1 0 "C1" (3/1000),
   mkRec "APAC" 2024 2 31 "C1" 0,
   mkRec "APAC" 2024 3 60 "C1" 0]

/-- Three records over two customers, "A1" appearing twice (10 + 5 = 15)
and "B1" once (20). -/
def topSales : List SalesRecord :=
  [mkRec "APAC" 2024 1 0 "A1" 10,
   mkRec "APAC" 2024 1 1 "B1" 20,
   mkRec "APAC" 2024 1 2 "A1" 5]

/-- A two-record ledger over two regions with cent-valued revenues. -/
def ledger2 : List SalesRecord :=
  [mkRec "APAC" 2024 1 0 "A1" (21/2),
   mkRec "EMEA" 2024 2 31 "E1" (81/4)]

/-- A rational that is an exact multiple of a cent, as every stored revenue
is (`revenue=round(revenue, 2)` at generation time). -/
def centValue (q : ℚ) : Prop := ∃ n : ℤ, q = n / 100

/-! ## Lemmas about the rounding embedding -/
theorem roundHalfEven_intCast (n : ℤ) : roundHalfEven (n : ℚ) = n := by
  unfold roundHalfEven
  rw [Int.floor_intCast]
  norm_num

theorem roundHalfEven_le (x : ℚ) : (roundHalfEven x : ℚ) ≤ x + 1/2 := by
  have h0 : (⌊x⌋ : ℚ) ≤ x := Int.floor_le x
  have h1 : x - 1 < ⌊x⌋ := by
    have := Int.lt_floor_add_one x
    linarith
  unfold roundHalfEven
  split_ifs <;> push_cast <;> linarith

theorem le_roundHalfEven (x : ℚ) : x - 1/2 ≤ (roundHalfEven x : ℚ) := by
  have h0 : (⌊x⌋ : ℚ) ≤ x := Int.floor_le x
  have h1 : x - 1 < ⌊x⌋ := by
    have := Int.lt_floor_add_one x
    linarith
  unfold roundHalfEven
  split_ifs <;> push_cast <;> linarith

theorem roundHalfEven_mono {x y : ℚ} (h : x ≤ y) :
    roundHalfEven x ≤ roundHalfEven y := by
  have hfl : ⌊x⌋ ≤ ⌊y⌋ := Int.floor_mono h
  rcases lt_or_eq_of_le hfl with hlt | heq
  · have hx1 : roundHalfEven x ≤ ⌊x⌋ + 1 := by
      unfold roundHalfEven; split_ifs <;> omega
    have hy0 : ⌊y⌋ ≤ roundHalfEven y := by
      unfold roundHalfEven; split_ifs <;> omega
    omega
  · unfold roundHalfEven
    rw [← heq]
    split_ifs <;> first | omega | (exfalso; linarith)

/-- Source: `round2` is the identity on exact multiples of a cent (the generator
stores every revenue as `round(revenue, 2)`). -/
theorem round2_eq_of_cent {x : ℚ} (h : ∃ n : ℤ, x = n / 100) : round2 x = x := by
  obtain ⟨n, rfl⟩ := h
  unfold round2
  have h100 : ((n : ℚ) / 100) * 100 = (n : ℚ) := by ring
  rw [h100, roundHalfEven_intCast]

theorem round2_mono {x y : ℚ} (h : x ≤ y) : round2 x ≤ round2 y := by
  unfold round2
  have := roundHalfEven_mono (x := x * 100) (y := y * 100) (by linarith)
  have : ((roundHalfEven (x * 100) : ℚ)) ≤ ((roundHalfEven (y * 100) : ℚ)) := by
    exact_mod_cast this
  linarith

theorem round2_le (x : ℚ) : round2 x ≤ x + 1/200 := by
  unfold round2
  have := roundHalfEven_le (x * 100)
  linarith

theorem le_round2 (x : ℚ) : x - 1/200 ≤ round2 x := by
  unfold round2
  have := le_roundHalfEven (x * 100)
  linarith

/-! ## Claim theorems -/

/-- C3: for every customer order history (and volatility draw), the computed
risk_category is "Low" iff the unrounded risk_score is < 30, "Medium" iff
30 ≤ risk_score < 60, and "High" iff risk_score ≥ 60. -/
theorem c3_risk_category_boundaries (days : ℤ) (order_count overdue_count : ℕ)
    (volatility : ℚ) :
    (riskCategory (riskScore days order_count overdue_count volatility) = "Low" ↔
      riskScore days order_count overdue_count volatility < 30) ∧
    (riskCategory (riskScore days order_count overdue_count volatility) = "Medium" ↔
      30 ≤ riskScore days order_count overdue_count volatility ∧
        riskScore days order_count overdue_count volatility < 60) ∧
    (riskCategory (riskScore days order_count overdue_count volatility) = "High" ↔
      60 ≤ riskScore days order_count overdue_count volatility) := by
  generalize riskScore days order_count overdue_count volatility = s
  unfold riskCategory
  split_ifs with h1 h2 <;>
    refine ⟨⟨fun hx => ?_, fun hx => ?_⟩, ⟨fun hx => ?_, fun hx => ?_⟩,
      ⟨fun hx => ?_, fun hx => ?_⟩⟩ <;>
    first
      | rfl
      | linarith
      | (constructor <;> linarith)
      | (exfalso; simp_all)

/-- C6: holding the volatility draw, the order count and all other inputs
fixed, strictly increasing the overdue count (hence the overdue_ratio, which
stays within [0,1]) strictly decreases payment_history_score and strictly
increases risk_score. -/
theorem c6_overdue_monotone (days : ℤ) (order_count o1 o2 : ℕ) (volatility : ℚ)
    (hn : 0 < order_count) (h12 : o1 < o2) (h2n : o2 ≤ order_count) :
    paymentHistoryScore o2 order_count < paymentHistoryScore o1 order_count ∧
    riskScore days order_count o1 volatility <
      riskScore days order_count o2 volatility := by
  have hnq : (0 : ℚ) < order_count := by exact_mod_cast hn
  have hratio : (o1 : ℚ) / order_count < (o2 : ℚ) / order_count := by
    gcongr
  have hub : (o2 : ℚ) / order_count ≤ 1 := by
    rw [div_le_one hnq]
    exact_mod_cast h2n
  have h1ub : (o1 : ℚ) / order_count ≤ 1 := le_trans (le_of_lt hratio) hub
  have e1 : paymentHistoryScore o1 order_count = 100 - (o1 : ℚ) / order_count * 100 := by
    unfold paymentHistoryScore overdueRatio
    rw [if_pos hn, max_eq_right (by linarith)]
  have e2 : paymentHistoryScore o2 order_count = 100 - (o2 : ℚ) / order_count * 100 := by
    unfold paymentHistoryScore overdueRatio
    rw [if_pos hn, max_eq_right (by linarith)]
  constructor
  · rw [e1, e2]
    linarith
  · unfold riskScore paymentFactor
    rw [e1, e2]
    linarith

/-- Witness for C6 at a concrete input: 4 orders, overdue count raised from
1 to 2, days_since_last_order 37, volatility 5. -/
theorem c6_overdue_monotone_witness :
    paymentHistoryScore 2 4 < paymentHistoryScore 1 4 ∧
    riskScore 37 4 1 5 < riskScore 37 4 2 5 :=
  c6_overdue_monotone 37 4 1 2 5 (by norm_num) (by norm_num) (by norm_num)

/-- C2 as stated is false: no order history, evaluation time and volatility
draw in [0,30] makes `risk_score` exceed 100.  The three summands are capped
at 30, 40 and 30 respectively, so the sum never passes 100. -/
theorem c2_counterexample :
    ¬ ∃ (days : ℤ) (order_count overdue_count : ℕ) (volatility : ℚ),
      0 < order_count ∧ overdue_count ≤ order_count ∧
      0 ≤ volatility ∧ volatility ≤ 30 ∧
      100 < riskScore days order_count overdue_count volatility := by
  rintro ⟨days, n, o, vol, -, -, -, hv30, hgt⟩
  have hrec : recencyFactor days ≤ 30 := by
    unfold recencyFactor
    have : min ((days : ℚ) / 365) 1 ≤ 1 := min_le_right _ _
    linarith
  have hphs : 0 ≤ paymentHistoryScore o n := le_max_left _ _
  have hpay : paymentFactor (paymentHistoryScore o n) ≤ 40 := by
    unfold paymentFactor
    linarith
  unfold riskScore at hgt
  linarith

/-- C2 amended: the additive risk_score formula is bounded above by 100 for
every volatility draw ≤ 30, and the bound is attained (365 days since the
last order, a single fully-overdue order, volatility exactly 30). -/
theorem c2_amended :
    (∀ (days : ℤ) (order_count overdue_count : ℕ) (volatility : ℚ),
      volatility ≤ 30 →
      riskScore days order_count overdue_count volatility ≤ 100) ∧
    riskScore 365 1 1 30 = 100 := by
  constructor
  · intro days n o vol hv30
    have hrec : recencyFactor days ≤ 30 := by
      unfold recencyFactor
      have : min ((days : ℚ) / 365) 1 ≤ 1 := min_le_right _ _
      linarith
    have hphs : 0 ≤ paymentHistoryScore o n := le_max_left _ _
    have hpay : paymentFactor (paymentHistoryScore o n) ≤ 40 := by
      unfold paymentFactor
      linarith
    unfold riskScore
    linarith
  · unfold riskScore recencyFactor paymentFactor paymentHistoryScore overdueRatio
    norm_num

/-- Witness for C2 (amended) at concrete inputs. -/
theorem c2_amended_witness :
    riskScore 10 3 1 7 ≤ 100 ∧ riskScore 365 1 1 30 = 100 :=
  ⟨c2_amended.1 10 3 1 7 (by norm_num), c2_amended.2⟩

theorem revenueSum_nonneg {rs : List SalesRecord}
    (h : ∀ r ∈ rs, 0 ≤ r.revenue) : 0 ≤ revenueSum rs := by
  unfold revenueSum
  apply List.sum_nonneg
  intro x hx
  obtain ⟨r, hr, rfl⟩ := List.mem_map.mp hx
  exact h r hr

/-- C5: with non-negative record revenues (the data model stores only
non-negative amounts), a zero prior-30-day-window revenue makes the derived
revenue_growth 0 — the computation is total, no division is performed — and
otherwise revenue_growth is `(current - previous) / previous * 100`. -/
theorem c5_growth_guard (sales : List SalesRecord) (now : ℤ)
    (hnn : ∀ r ∈ sales, 0 ≤ r.revenue) :
    (revenueSum (previousSales sales now) = 0 → kpiRevenueGrowth sales now = 0) ∧
    (revenueSum (previousSales sales now) ≠ 0 →
      kpiRevenueGrowth sales now =
        (revenueSum (currentSales sales now) - revenueSum (previousSales sales now))
          / revenueSum (previousSales sales now) * 100) := by
  have hpos : 0 ≤ revenueSum (previousSales sales now) := by
    apply revenueSum_nonneg
    intro r hr
    exact hnn r (List.mem_of_mem_filter hr)
  unfold kpiRevenueGrowth revenueGrowth
  constructor
  · intro h
    rw [h]
    norm_num
  · intro h
    rw [if_pos (lt_of_le_of_ne hpos (Ne.symm h))]

/-- Witness for C5: a one-record ledger whose record falls in the current
window, so the previous window is empty and the growth is 0; and a
two-record ledger with one record in each window, growth (60-30)/30*100. -/
theorem c5_growth_guard_witness :
    kpiRevenueGrowth [mkRec "APAC" 2024 3 (-10) "A1" 50] 0 = 0 ∧
    kpiRevenueGrowth
      [mkRec "APAC" 2024 3 (-10) "A1" 60, mkRec "APAC" 2024 2 (-45) "A1" 30] 0 =
      (60 - 30) / 30 * 100 := by
  constructor
  · apply (c5_growth_guard [mkRec "APAC" 2024 3 (-10) "A1" 50] 0 ?_).1 ?_
    · intro r hr
      fin_cases hr
      norm_num [mkRec]
    · norm_num [previousSales, revenueSum, mkRec, List.filter]
  · have h := (c5_growth_guard
      [mkRec "APAC" 2024 3 (-10) "A1" 60, mkRec "APAC" 2024 2 (-45) "A1" 30] 0 ?_).2 ?_
    · rw [h]
      norm_num [previousSales, currentSales, revenueSum, mkRec, List.filter]
    · intro r hr
      fin_cases hr <;> norm_num [mkRec]
    · norm_num [previousSales, revenueSum, mkRec, List.filter]

/-- C7: for every record set and every `period` value other than "monthly"
and "quarterly" (including malformed values), `get_sales_trends` aggregates
by the yearly key — the record's year — rather than rejecting the parameter:
the result is identical to an explicit "yearly" call. -/
theorem c7_period_fallback (period : String) (sales : List SalesRecord)
    (hm : period ≠ "monthly") (hq : period ≠ "quarterly") :
    get_sales_trends period sales = get_sales_trends "yearly" sales ∧
    ∀ d : Datetime, periodKey period d = d.year := by
  have hk : ∀ d : Datetime, periodKey period d = d.year := by
    intro d
    unfold periodKey
    rw [if_neg hm, if_neg hq]
  have hk' : ∀ d : Datetime, periodKey "yearly" d = d.year := by
    intro d
    unfold periodKey
    rw [if_neg (by decide), if_neg (by decide)]
  refine ⟨?_, hk⟩
  unfold get_sales_trends
  simp only [hk, hk']

/-- Witness for C7: the malformed period "weekly" on a two-record ledger
spanning two years aggregates exactly as "yearly" does. -/
theorem c7_period_fallback_witness :
    get_sales_trends "weekly"
        [mkRec "APAC" 2023 5 0 "A1" 10, mkRec "EMEA" 2024 7 400 "E1" 20] =
      get_sales_trends "yearly"
        [mkRec "APAC" 2023 5 0 "A1" 10, mkRec "EMEA" 2024 7 400 "E1" 20] ∧
    periodKey "weekly" ⟨2024, 7, 400⟩ = 2024 :=
  ⟨(c7_period_fallback "weekly" _ (by decide) (by decide)).1,
   (c7_period_fallback "weekly" [] (by decide) (by decide)).2 ⟨2024, 7, 400⟩⟩

/-- C9 as stated is false: on an empty ledger `get_regional_summary` skips
all three regions (`if not sales_data: continue`) and returns the empty
list, not a list of length 3. -/
theorem c9_counterexample :
    (get_regional_summary [] []).length = 0 ∧
    (get_regional_summary [] []).length ≠ 3 := by
  constructor <;> decide

/-- C9 amended: `get_regional_summary` returns exactly one summary per
region of the fixed 3-region list that has at least one sales record, in
region-list order; regions without records are skipped, so the length is
the number of non-empty regions (at most 3, not always 3). -/
theorem c9_amended (sales : List SalesRecord) (profiles : List CustomerProfile) :
    (get_regional_summary sales profiles).map RegionalSummary.region =
      regions.filter
        (fun rg => !(sales.filter (fun r => r.region = rg)).isEmpty) ∧
    (get_regional_summary sales profiles).length ≤ 3 := by
  have aux : ∀ rgs : List String,
      (rgs.filterMap (regionSummaryFor sales profiles)).map RegionalSummary.region =
        rgs.filter (fun rg => !(sales.filter (fun r => r.region = rg)).isEmpty) := by
    intro rgs
    induction rgs with
    | nil => rfl
    | cons rg t ih =>
      by_cases h : (sales.filter (fun r => r.region = rg)).isEmpty = true
      · simp [List.filterMap_cons, List.filter_cons, regionSummaryFor, h, ih]
      · simp [List.filterMap_cons, List.filter_cons, regionSummaryFor, h, ih]
  constructor
  · exact aux regions
  · have hlen : ((get_regional_summary sales profiles).map RegionalSummary.region).length =
        (get_regional_summary sales profiles).length := List.length_map _ _
    have e : get_regional_summary sales profiles =
        regions.filterMap (regionSummaryFor sales profiles) := rfl
    rw [← hlen, e, aux regions]
    calc (regions.filter _).length ≤ regions.length := List.length_filter_le _ _
      _ = 3 := rfl

theorem centValue_sum {l : List ℚ} (h : ∀ x ∈ l, centValue x) :
    centValue l.sum := by
  induction l with
  | nil => exact ⟨0, by norm_num⟩
  | cons a t ih =>
    obtain ⟨n, hn⟩ := h a (List.mem_cons_self a t)
    obtain ⟨m, hm⟩ := ih (fun x hx => h x (List.mem_cons_of_mem a hx))
    refine ⟨n + m, ?_⟩
    rw [List.sum_cons, hn, hm]
    push_cast
    ring

theorem sum_map_ite_eq_single {x : String} {c : ℚ} :
    ∀ {ks : List String}, ks.Nodup → x ∈ ks →
      (ks.map (fun k => if x = k then c else 0)).sum = c := by
  intro ks
  induction ks with
  | nil => intro _ h; cases h
  | cons k t ih =>
    intro hnd hx
    rcases List.mem_cons.mp hx with rfl | hx'
    · rw [List.map_cons, List.sum_cons, if_pos rfl]
      have hnot : x ∉ t := (List.nodup_cons.mp hnd).1
      have hz : (t.map (fun k => if x = k then c else 0)).sum = 0 := by
        apply List.sum_eq_zero
        intro y hy
        obtain ⟨k', hk', rfl⟩ := List.mem_map.mp hy
        rw [if_neg]
        intro e
        exact hnot (e ▸ hk')
      rw [hz]
      ring
    · by_cases e : x = k
      · exact absurd (e ▸ hx') (List.nodup_cons.mp hnd).1
      · rw [List.map_cons, List.sum_cons, if_neg e,
          ih (List.nodup_cons.mp hnd).2 hx']
        ring

/-- Summing per-region revenue over a duplicate-free key list covering all
records partitions the ledger total. -/
theorem sum_filter_partition (ks : List String) (hnd : ks.Nodup)
    (l : List SalesRecord) (hmem : ∀ r ∈ l, r.region ∈ ks) :
    (ks.map (fun k => revenueSum (l.filter (fun r => r.region = k)))).sum =
      revenueSum l := by
  induction l with
  | nil => simp [revenueSum]
  | cons r t ih =>
    have hr : r.region ∈ ks := hmem r (List.mem_cons_self r t)
    have ht : ∀ x ∈ t, x.region ∈ ks := fun x hx => hmem x (List.mem_cons_of_mem r hx)
    have step : ∀ k, revenueSum ((r :: t).filter (fun s => s.region = k)) =
        (if r.region = k then r.revenue else 0)
          + revenueSum (t.filter (fun s => s.region = k)) := by
      intro k
      by_cases e : r.region = k
      · simp [List.filter_cons, e, revenueSum]
      · simp [List.filter_cons, e, revenueSum]
    calc (ks.map (fun k => revenueSum ((r :: t).filter (fun s => s.region = k)))).sum
        = (ks.map (fun k => (if r.region = k then r.revenue else 0)
            + revenueSum (t.filter (fun s => s.region = k)))).sum := by
          simp only [step]
      _ = (ks.map (fun k => if r.region = k then r.revenue else 0)).sum
          + (ks.map (fun k => revenueSum (t.filter (fun s => s.region = k)))).sum :=
          List.sum_map_add
      _ = r.revenue + revenueSum t := by
          rw [sum_map_ite_eq_single hnd hr, ih ht]
      _ = revenueSum (r :: t) := by simp [revenueSum]

/-- The summary totals of `get_regional_summary`, region by region: a
skipped region contributes 0 exactly because its filtered revenue sum is 0. -/
theorem sum_total_revenue_eq (sales : List SalesRecord)
    (profiles : List CustomerProfile) :
    ((get_regional_summary sales profiles).map RegionalSummary.total_revenue).sum =
      (regions.map
        (fun rg => round2 (revenueSum (sales.filter (fun r => r.region = rg))))).sum := by
  have hz : round2 0 = 0 := round2_eq_of_cent ⟨0, by norm_num⟩
  have aux : ∀ rgs : List String,
      ((rgs.filterMap (regionSummaryFor sales profiles)).map
        RegionalSummary.total_revenue).sum =
      (rgs.map
        (fun rg => round2 (revenueSum (sales.filter (fun r => r.region = rg))))).sum := by
    intro rgs
    induction rgs with
    | nil => rfl
    | cons rg t ih =>
      by_cases h : (sales.filter (fun r => r.region = rg)).isEmpty = true
      · have hfe : sales.filter (fun r => r.region = rg) = [] := List.isEmpty_iff.mp h
        simp [List.filterMap_cons, regionSummaryFor, h, ih, hfe, revenueSum, hz]
      · simp [List.filterMap_cons, regionSummaryFor, h, ih]
  exact aux regions

/-- C1: when every record's region is one of the three fixed regions and
every revenue is an exact multiple of a cent (as the generator stores), the
sum of `total_revenue` over the returned regional summaries equals the
ledger's total revenue exactly. -/
theorem c1_regional_totals (sales : List SalesRecord)
    (profiles : List CustomerProfile)
    (hreg : ∀ r ∈ sales, r.region ∈ regions)
    (hcent : ∀ r ∈ sales, centValue r.revenue) :
    ((get_regional_summary sales profiles).map RegionalSummary.total_revenue).sum =
      revenueSum sales := by
  rw [sum_total_revenue_eq]
  have hround : ∀ rg : String,
      round2 (revenueSum (sales.filter (fun r => r.region = rg))) =
        revenueSum (sales.filter (fun r => r.region = rg)) := by
    intro rg
    apply round2_eq_of_cent
    apply centValue_sum
    intro x hx
    obtain ⟨r, hr, rfl⟩ := List.mem_map.mp hx
    exact hcent r (List.mem_of_mem_filter hr)
  simp only [hround]
  exact sum_filter_partition regions (by decide) sales hreg

/-- Witness for C1: a two-record ledger (10.50 in APAC, 20.25 in EMEA) whose
regional totals sum to the ledger total 30.75. -/
theorem c1_regional_totals_witness :
    ((get_regional_summary ledger2 []).map RegionalSummary.total_revenue).sum =
      revenueSum ledger2 ∧
    revenueSum ledger2 = 123/4 := by
  constructor
  · apply c1_regional_totals
    · intro r hr
      fin_cases hr <;> decide
    · intro r hr
      fin_cases hr
      · exact ⟨1050, by norm_num [ledger2, mkRec]⟩
      · exact ⟨2025, by norm_num [ledger2, mkRec]⟩
  · norm_num [revenueSum, ledger2, mkRec]

/-- C4: a record set whose monthly aggregation yields fewer than 3 non-empty
months makes the forecast return the empty list; and on exactly 3 monthly
buckets with revenues 100, 200, 300 in chronological order the OLS fit gives
slope 100 and intercept 100, so the first future point — index 3 of the
output, after the 3 actual months — has forecasted_revenue 400 with
confidence interval lower 320 and upper 480. -/
theorem c4_forecast :
    (∀ (sales : List SalesRecord) (months : ℕ) (fmk : ℕ → ℕ),
      (monthlyData sales).length < 3 → get_sales_forecast sales months fmk = []) ∧
    polyfitSlope (revenuesByMonth forecastSales3) = 100 ∧
    polyfitIntercept (revenuesByMonth forecastSales3) = 100 ∧
    ∀ fmk : ℕ → ℕ, (get_sales_forecast forecastSales3 6 fmk)[3]? =
      some ⟨fmk 1, none, some 400, some (320, 480)⟩ := by
  have h1 : revenuesByMonth forecastSales3 = [100, 200, 300] := by
    norm_num [revenuesByMonth, sortedMonths, monthlyData, addMonthly, monthKey,
      monthRevenue, forecastSales3, mkRec, List.insertionSort, List.orderedInsert,
      List.find?]
  refine ⟨?_, ?_, ?_, ?_⟩
  · intro sales months fmk h
    have hlen : (revenuesByMonth sales).length = (monthlyData sales).length := by
      unfold revenuesByMonth sortedMonths
      rw [List.length_map, List.length_insertionSort, List.length_map]
    unfold get_sales_forecast
    by_cases hemp : sales.isEmpty = true
    · rw [if_pos hemp]
    · rw [if_neg hemp, if_pos (by rw [hlen]; exact h)]
  · rw [h1]
    norm_num [polyfitSlope, List.range_succ]
  · rw [h1]
    norm_num [polyfitIntercept, polyfitSlope, List.range_succ]
  · intro fmk
    have hsm : sortedMonths forecastSales3 = [202401, 202402, 202403] := by
      norm_num [sortedMonths, monthlyData, addMonthly, monthKey, forecastSales3,
        mkRec, List.insertionSort, List.orderedInsert]
    have hmd : monthlyData forecastSales3 =
        [(202401, 100), (202402, 200), (202403, 300)] := by
      norm_num [monthlyData, addMonthly, monthKey, forecastSales3, mkRec]
    have hne : forecastSales3.isEmpty = false := rfl
    have hfv : ∀ j : ℕ, forecastValue [100, 200, 300] j = 100 * (2 + j : ℕ) + 100 := by
      intro j
      norm_num [forecastValue, polyfitSlope, polyfitIntercept, List.range_succ]
    have hr400 : round2 400 = 400 := round2_eq_of_cent ⟨40000, by norm_num⟩
    have hr320 : round2 320 = 320 := round2_eq_of_cent ⟨32000, by norm_num⟩
    have hr480 : round2 480 = 480 := round2_eq_of_cent ⟨48000, by norm_num⟩
    simp only [get_sales_forecast, hne, h1, hsm, monthRevenue, hmd]
    norm_num [List.range_succ, hfv, hr400, hr320, hr480, List.find?]

/-- Witness for C4: a ledger spanning only 2 monthly buckets yields the
empty forecast. -/
theorem c4_forecast_witness :
    (monthlyData ledger2).length < 3 ∧
    get_sales_forecast ledger2 4 (fun i => i) = [] := by
  have h : (monthlyData ledger2).length < 3 := by
    norm_num [monthlyData, addMonthly, monthKey, ledger2, mkRec]
  exact ⟨h, c4_forecast.1 ledger2 4 (fun i => i) h⟩

/-- C10 amended: every future point of the forecast carries
`confidence_interval = (round2(f·0.8), round2(f·1.2))` and
`forecasted_revenue = round2 f` for its projected value `f`.  For `f ≥ 0`
this gives `lower ≤ forecasted_revenue ≤ upper`; for `f < 0` the interval is
reversed, `upper ≤ forecasted_revenue ≤ lower`, with `lower` strictly above
`upper` whenever `f < -0.025` — but near-zero negative projections can round
to a degenerate `lower = upper = forecasted_revenue`, so the containment is
not *exactly* characterised by the sign of `f`. -/
theorem c10_confidence_band (sales : List SalesRecord) (months : ℕ)
    (fmk : ℕ → ℕ) (fd : ForecastData)
    (hmem : fd ∈ get_sales_forecast sales months fmk)
    (lo hi : ℚ) (hci : fd.confidence_interval = some (lo, hi)) :
    ∃ i : ℕ, ∃ fv : ℚ, 1 ≤ i ∧ fv = forecastValue (revenuesByMonth sales) i ∧
      fd.forecasted_revenue = some (round2 fv) ∧
      lo = round2 (fv * (8/10)) ∧ hi = round2 (fv * (12/10)) ∧
      (0 ≤ fv → lo ≤ round2 fv ∧ round2 fv ≤ hi) ∧
      (fv < 0 → hi ≤ round2 fv ∧ round2 fv ≤ lo) ∧
      (fv < -(1/40) → hi < lo) := by
  unfold get_sales_forecast at hmem
  split_ifs at hmem with h1
  · simp at hmem
  · simp at hmem
    obtain ⟨-, hh | hf⟩ := hmem
    · obtain ⟨m, hm, hfd⟩ := List.mem_map.mp (List.mem_of_mem_drop hh)
      rw [← hfd] at hci
      simp at hci
    · obtain ⟨j, hj, hfd⟩ := hf
      subst hfd
      simp only [Option.some.injEq, Prod.mk.injEq] at hci
      obtain ⟨hlo, hhi⟩ := hci
      refine ⟨j + 1, forecastValue (revenuesByMonth sales) (j + 1),
        by omega, rfl, rfl, hlo.symm, hhi.symm, ?_, ?_, ?_⟩
      · intro hfv
        subst hlo hhi
        constructor
        · exact round2_mono (by linarith)
        · exact round2_mono (by linarith)
      · intro hfv
        subst hlo hhi
        constructor
        · exact round2_mono (by linarith)
        · exact round2_mono (by linarith)
      · intro hfv
        subst hlo hhi
        have hu := round2_le (forecastValue (revenuesByMonth sales) (j + 1) * (12/10))
        have hl := le_round2 (forecastValue (revenuesByMonth sales) (j + 1) * (8/10))
        linarith

/-- Witness for C10 (amended) on the worked 100/200/300 example: the first
future point's band around 400 is [320, 480]. -/
theorem c10_confidence_band_witness :
    ∃ i : ℕ, ∃ fv : ℚ, 1 ≤ i ∧ fv = forecastValue (revenuesByMonth forecastSales3) i ∧
      (ForecastData.mk 1 none (some 400) (some (320, 480))).forecasted_revenue =
        some (round2 fv) ∧
      (320 : ℚ) = round2 (fv * (8/10)) ∧ (480 : ℚ) = round2 (fv * (12/10)) ∧
      (0 ≤ fv → (320 : ℚ) ≤ round2 fv ∧ round2 fv ≤ 480) ∧
      (fv < 0 → (480 : ℚ) ≤ round2 fv ∧ round2 fv ≤ 320) ∧
      (fv < -(1/40) → (480 : ℚ) < 320) := by
  apply c10_confidence_band forecastSales3 6 (fun i => i)
    (ForecastData.mk 1 none (some 400) (some (320, 480))) ?_ 320 480 rfl
  have h1 : revenuesByMonth forecastSales3 = [100, 200, 300] := by
    norm_num [revenuesByMonth, sortedMonths, monthlyData, addMonthly, monthKey,
      monthRevenue, forecastSales3, mkRec, List.insertionSort, List.orderedInsert,
      List.find?]
  have hsm : sortedMonths forecastSales3 = [202401, 202402, 202403] := by
    norm_num [sortedMonths, monthlyData, addMonthly, monthKey, forecastSales3,
      mkRec, List.insertionSort, List.orderedInsert]
  have hmd : monthlyData forecastSales3 =
      [(202401, 100), (202402, 200), (202403, 300)] := by
    norm_num [monthlyData, addMonthly, monthKey, forecastSales3, mkRec]
  have hne : forecastSales3.isEmpty = false := rfl
  have hfv : ∀ j : ℕ, forecastValue [100, 200, 300] j = 100 * (2 + j : ℕ) + 100 := by
    intro j
    norm_num [forecastValue, polyfitSlope, polyfitIntercept, List.range_succ]
  have hr400 : round2 400 = 400 := round2_eq_of_cent ⟨40000, by norm_num⟩
  have hr320 : round2 320 = 320 := round2_eq_of_cent ⟨32000, by norm_num⟩
  have hr480 : round2 480 = 480 := round2_eq_of_cent ⟨48000, by norm_num⟩
  have h : (get_sales_forecast forecastSales3 6 (fun i => i))[3]? =
      some (ForecastData.mk 1 none (some 400) (some (320, 480))) := by
    simp only [get_sales_forecast, hne, h1, hsm, monthRevenue, hmd]
    norm_num [List.range_succ, hfv, hr400, hr320, hr480, List.find?]
  exact List.getElem?_mem h

/-- C10 as stated is false at a near-zero negative trend: on monthly buckets
0.003, 0, 0 the first future projection is -0.002 < 0, yet every output of
that point rounds to 0.00, so `lower ≤ forecasted_revenue ≤ upper` holds
(0 ≤ 0 ≤ 0) although the forecasted value is negative, and the negative
trend does *not* yield `lower > upper`. -/
theorem c10_counterexample :
    forecastValue (revenuesByMonth forecastSalesTiny) 1 = -(1/500) ∧
    forecastValue (revenuesByMonth forecastSalesTiny) 1 < 0 ∧
    (get_sales_forecast forecastSalesTiny 1 (fun i => i))[3]? =
      some ⟨1, none, some 0, some (0, 0)⟩ ∧
    ((0 : ℚ) ≤ 0 ∧ (0 : ℚ) ≤ 0) ∧ ¬ ((0 : ℚ) > 0) := by
  have h1 : revenuesByMonth forecastSalesTiny = [3/1000, 0, 0] := by
    norm_num [revenuesByMonth, sortedMonths, monthlyData, addMonthly, monthKey,
      monthRevenue, forecastSalesTiny, mkRec, List.insertionSort, List.orderedInsert,
      List.find?]
  have hfv : forecastValue [3/1000, 0, 0] 1 = -(1/500) := by
    norm_num [forecastValue, polyfitSlope, polyfitIntercept, List.range_succ]
  have hsm : sortedMonths forecastSalesTiny = [202401, 202402, 202403] := by
    norm_num [sortedMonths, monthlyData, addMonthly, monthKey, forecastSalesTiny,
      mkRec, List.insertionSort, List.orderedInsert]
  have hmd : monthlyData forecastSalesTiny =
      [(202401, 3/1000), (202402, 0), (202403, 0)] := by
    norm_num [monthlyData, addMonthly, monthKey, forecastSalesTiny, mkRec]
  have hne : forecastSalesTiny.isEmpty = false := rfl
  have hr1 : round2 (-(1/500)) = 0 := by norm_num [round2, roundHalfEven]
  have hr2 : round2 (-(1/625)) = 0 := by norm_num [round2, roundHalfEven]
  have hr3 : round2 (-(3/1250)) = 0 := by norm_num [round2, roundHalfEven]
  refine ⟨by rw [h1]; exact hfv, by rw [h1, hfv]; norm_num, ?_, by norm_num, by norm_num⟩
  simp only [get_sales_forecast, hne, h1, hsm, monthRevenue, hmd, hfv]
  norm_num [List.range_succ, hfv, hr1, hr2, hr3, List.find?]

/-- Inserting into a descending-ordered prefix walks only past strictly
larger revenues, so filtering at any fixed revenue level commutes with the
insertion — the key stability property of the embedded sort. -/
theorem filter_orderedInsert_rev (v : ℚ) (a : CustEntry) :
    ∀ l : List CustEntry,
      (List.orderedInsert (fun a b => b.revenue ≤ a.revenue) a l).filter
          (fun e => e.revenue = v) =
        if a.revenue = v
        then a :: l.filter (fun e => e.revenue = v)
        else l.filter (fun e => e.revenue = v) := by
  intro l
  induction l with
  | nil =>
    by_cases hav : a.revenue = v
    · simp [List.orderedInsert, List.filter, hav]
    · simp [List.orderedInsert, List.filter, hav]
  | cons b t ih =>
    by_cases hab : b.revenue ≤ a.revenue
    · rw [List.orderedInsert, if_pos hab]
      by_cases hav : a.revenue = v
      · simp [List.filter_cons, hav]
      · simp [List.filter_cons, hav]
    · rw [List.orderedInsert, if_neg hab]
      by_cases hbv : b.revenue = v
      · have hav : ¬ a.revenue = v := by
          intro h
          exact hab (le_of_eq (hbv.trans h.symm))
        simp [List.filter_cons, hbv, hav, ih]
      · by_cases hav : a.revenue = v
        · simp [List.filter_cons, hbv, hav, ih]
        · simp [List.filter_cons, hbv, hav, ih]

/-- Filtering at any fixed revenue level commutes with the embedded stable
descending sort: equal-revenue entries keep their original relative order. -/
theorem filter_insertionSort_rev (v : ℚ) :
    ∀ l : List CustEntry,
      (List.insertionSort (fun a b => b.revenue ≤ a.revenue) l).filter
          (fun e => e.revenue = v) =
        l.filter (fun e => e.revenue = v) := by
  intro l
  induction l with
  | nil => rfl
  | cons a t ih =>
    rw [List.insertionSort, filter_orderedInsert_rev]
    by_cases hav : a.revenue = v
    · rw [if_pos hav, ih, List.filter_cons, if_pos (by simp [hav])]
    · rw [if_neg hav, ih, List.filter_cons, if_neg (by simp [hav])]

theorem keys_addCustomerRevenue (cid nm : String) (rev : ℚ) :
    ∀ acc : List CustEntry,
      (addCustomerRevenue acc cid nm rev).map CustEntry.customer_id =
        if cid ∈ acc.map CustEntry.customer_id
        then acc.map CustEntry.customer_id
        else acc.map CustEntry.customer_id ++ [cid] := by
  intro acc
  induction acc with
  | nil => simp [addCustomerRevenue]
  | cons e es ih =>
    by_cases h : e.customer_id = cid
    · simp [addCustomerRevenue, h]
    · have h' : ¬ cid = e.customer_id := fun hc => h hc.symm
      simp only [addCustomerRevenue, if_neg h, List.map_cons, ih, List.mem_cons, h',
        false_or]
      by_cases hmem : cid ∈ es.map CustEntry.customer_id
      · rw [if_pos hmem, if_pos hmem]
      · rw [if_neg hmem, if_neg hmem, List.cons_append]

theorem mem_addCustomerRevenue (cid nm : String) (rev : ℚ) :
    ∀ acc : List CustEntry, (acc.map CustEntry.customer_id).Nodup →
      ∀ e' ∈ addCustomerRevenue acc cid nm rev,
        (e' ∈ acc ∧ e'.customer_id ≠ cid) ∨
        (∃ e ∈ acc, e.customer_id = cid ∧
          e' = ⟨e.customer_id, e.name, e.revenue + rev⟩) ∨
        (cid ∉ acc.map CustEntry.customer_id ∧ e' = ⟨cid, nm, rev⟩) := by
  intro acc
  induction acc with
  | nil =>
    intro _ e' he'
    simp [addCustomerRevenue] at he'
    exact Or.inr (Or.inr ⟨by simp, he'⟩)
  | cons e es ih =>
    intro hnd e' he'
    have hnd' : (es.map CustEntry.customer_id).Nodup :=
      (List.nodup_cons.mp (by simpa using hnd)).2
    have hhead : e.customer_id ∉ es.map CustEntry.customer_id :=
      (List.nodup_cons.mp (by simpa using hnd)).1
    by_cases h : e.customer_id = cid
    · rw [addCustomerRevenue, if_pos h] at he'
      rcases List.mem_cons.mp he' with rfl | hmem
      · exact Or.inr (Or.inl ⟨e, List.mem_cons_self e es, h, rfl⟩)
      · refine Or.inl ⟨List.mem_cons_of_mem e hmem, ?_⟩
        intro hc
        apply hhead
        rw [h, ← hc]
        exact List.mem_map_of_mem CustEntry.customer_id hmem
    · rw [addCustomerRevenue, if_neg h] at he'
      rcases List.mem_cons.mp he' with rfl | hmem
      · exact Or.inl ⟨List.mem_cons_self e' es, h⟩
      · rcases ih hnd' e' hmem with ⟨hm, hne⟩ | ⟨a, ha, hac, hae⟩ | ⟨hnm, hae⟩
        · exact Or.inl ⟨List.mem_cons_of_mem e hm, hne⟩
        · exact Or.inr (Or.inl ⟨a, List.mem_cons_of_mem e ha, hac, hae⟩)
        · refine Or.inr (Or.inr ⟨?_, hae⟩)
          simp only [List.map_cons, List.mem_cons]
          rintro (hc | hc)
          · exact h hc.symm
          · exact hnm hc

theorem customerRevenue_append_single (rs : List SalesRecord) (r : SalesRecord) :
    customerRevenue (rs ++ [r]) =
      addCustomerRevenue (customerRevenue rs) r.customer_id r.customer_name
        r.revenue := by
  unfold customerRevenue
  rw [List.foldl_append]
  rfl

/-- The `customer_revenue` dict holds one entry per customer appearing in
the record set, keyed without duplicates, whose `revenue` is that customer's
summed revenue over the set. -/
theorem customerRevenue_spec (rs : List SalesRecord) :
    (∀ e ∈ customerRevenue rs,
      e.revenue = revenueSum (rs.filter (fun r => r.customer_id = e.customer_id))) ∧
    ((customerRevenue rs).map CustEntry.customer_id).Nodup ∧
    (∀ r ∈ rs, r.customer_id ∈ (customerRevenue rs).map CustEntry.customer_id) := by
  induction rs using List.reverseRecOn with
  | nil =>
    refine ⟨?_, ?_, ?_⟩ <;> simp [customerRevenue]
  | append_singleton rs r ih =>
    obtain ⟨ihrev, ihnd, ihcov⟩ := ih
    have heq := customerRevenue_append_single rs r
    have hkeys := keys_addCustomerRevenue r.customer_id r.customer_name r.revenue
      (customerRevenue rs)
    refine ⟨?_, ?_, ?_⟩
    · intro e' he'
      rw [heq] at he'
      rcases mem_addCustomerRevenue r.customer_id r.customer_name r.revenue
          (customerRevenue rs) ihnd e' he' with
        ⟨hm, hne⟩ | ⟨a, ha, hac, hae⟩ | ⟨hnm, hae⟩
      · rw [List.filter_append]
        have : [r].filter (fun s => s.customer_id = e'.customer_id) = [] := by
          simp [List.filter, hne.symm]
        rw [this, List.append_nil]
        exact ihrev e' hm
      · subst hae
        rw [List.filter_append]
        have hr : [r].filter
            (fun s => s.customer_id = (CustEntry.mk a.customer_id a.name
              (a.revenue + r.revenue)).customer_id) = [r] := by
          simp [List.filter, hac]
        rw [hr]
        have : revenueSum (rs.filter (fun s => s.customer_id = a.customer_id)
            ++ [r]) = revenueSum (rs.filter (fun s => s.customer_id = a.customer_id))
            + r.revenue := by
          simp [revenueSum]
        simpa [this] using congrArg (· + r.revenue) (ihrev a ha)
      · subst hae
        have hempty : rs.filter (fun s => s.customer_id = r.customer_id) = [] := by
          rw [List.filter_eq_nil_iff]
          intro s hs hc
          apply hnm
          have : s.customer_id = r.customer_id := by simpa using hc
          exact this ▸ ihcov s hs
        rw [List.filter_append]
        simp [hempty, List.filter, revenueSum]
    · rw [heq, hkeys]
      by_cases hmem : r.customer_id ∈ (customerRevenue rs).map CustEntry.customer_id
      · rw [if_pos hmem]
        exact ihnd
      · rw [if_neg hmem]
        simp [List.nodup_append, ihnd, hmem]
    · intro s hs
      rw [heq, hkeys]
      rcases List.mem_append.mp hs with hold | hnew
      · have := ihcov s hold
        split_ifs with hmem
        · exact this
        · exact List.mem_append.mpr (Or.inl this)
      · have hsr : s = r := by simpa using hnew
        subst hsr
        split_ifs with hmem
        · exact hmem
        · exact List.mem_append.mpr (Or.inr (by simp))

/-- C8: `top_customers` is the first 5 entries — hence always at most 5 —
of the customers appearing in the filtered record set (one entry per
distinct customer_id, in first-appearance order, carrying that customer's
summed revenue) sorted by revenue descending with ties kept in original
insertion order: the sorted list is a permutation of the aggregation, is
pairwise descending, and filtering at any revenue level preserves the
original order of equal-revenue customers (stability). -/
theorem c8_top_customers (rs : List SalesRecord) :
    (topCustomers rs).length ≤ 5 ∧
    (∀ e ∈ customerRevenue rs,
      e.revenue = revenueSum (rs.filter (fun r => r.customer_id = e.customer_id))) ∧
    ((customerRevenue rs).map CustEntry.customer_id).Nodup ∧
    (∀ r ∈ rs, r.customer_id ∈ (customerRevenue rs).map CustEntry.customer_id) ∧
    ∃ full : List CustEntry,
      topCustomers rs = full.take 5 ∧
      full.Perm (customerRevenue rs) ∧
      full.Sorted (fun a b => b.revenue ≤ a.revenue) ∧
      ∀ v : ℚ, full.filter (fun e => e.revenue = v) =
        (customerRevenue rs).filter (fun e => e.revenue = v) := by
  obtain ⟨hrev, hnd, hcov⟩ := customerRevenue_spec rs
  refine ⟨?_, hrev, hnd, hcov,
    List.insertionSort (fun a b => b.revenue ≤ a.revenue) (customerRevenue rs),
    rfl, List.perm_insertionSort _ _, ?_, fun v => filter_insertionSort_rev v _⟩
  · unfold topCustomers
    exact List.length_take_le 5 _
  · haveI : IsTotal CustEntry (fun a b => b.revenue ≤ a.revenue) :=
      ⟨fun a b => le_total b.revenue a.revenue⟩
    haveI : IsTrans CustEntry (fun a b => b.revenue ≤ a.revenue) :=
      ⟨fun _ _ _ hab hbc => le_trans hbc hab⟩
    exact List.sorted_insertionSort _ _

/-- Witness for C8: on `topSales` the aggregation holds one summed entry per
customer and the top list is the descending sort, of length 2 ≤ 5. -/
theorem c8_top_customers_witness :
    (topCustomers topSales).length ≤ 5 ∧
    (CustEntry.mk "A1" "A1" 15).revenue =
      revenueSum (topSales.filter
        (fun r => r.customer_id = (CustEntry.mk "A1" "A1" 15).customer_id)) ∧
    topCustomers topSales =
      [CustEntry.mk "B1" "B1" 20, CustEntry.mk "A1" "A1" 15] := by
  have hcr : customerRevenue topSales =
      [CustEntry.mk "A1" "A1" 15, CustEntry.mk "B1" "B1" 20] := by
    norm_num [customerRevenue, addCustomerRevenue, topSales, mkRec]
  refine ⟨(c8_top_customers topSales).1, (c8_top_customers topSales).2.1 _ ?_, ?_⟩
  · rw [hcr]
    simp
  · unfold topCustomers
    rw [hcr]
    norm_num [List.insertionSort, List.orderedInsert]
